import Mathlib

/- Shallow embedding of svg2typst (src/main.rs), an SVG-to-typst converter.
   f64 values are modelled as rationals (the source does only +,*,- on them);
   attribute strings are Lean Strings (byte-level string
   operations coincide with character-level ones on ASCII data); XML text
   content is modelled as a byte list because the source iterates over its
   bytes. -/

/-- `svgtypes::Transform`: six-coefficient 2D affine transform. -/
structure Transform where
  a : ℚ
  b : ℚ
  c : ℚ
  d : ℚ
  e : ℚ
  f : ℚ
deriving DecidableEq, Repr, Inhabited

/-- `Transform::default()` of svgtypes: the identity transform. -/
def idTransform : Transform := ⟨1, 0, 0, 1, 0, 0⟩

/-- `transform_multiply` (main.rs:19-28). -/
def transform_multiply (ts1 ts2 : Transform) : Transform :=
  { a := ts1.a * ts2.a + ts1.c * ts2.b
    b := ts1.b * ts2.a + ts1.d * ts2.b
    c := ts1.a * ts2.c + ts1.c * ts2.d
    d := ts1.b * ts2.c + ts1.d * ts2.d
    e := ts1.a * ts2.e + ts1.c * ts2.f + ts1.e
    f := ts1.b * ts2.e + ts1.d * ts2.f + ts1.f }

/-- `apply_transform` (main.rs:30-33). -/
def apply_transform (coord : ℚ × ℚ) (t : Transform) : ℚ × ℚ :=
  (t.a * coord.1 + t.c * coord.2 + t.e, t.b * coord.1 + t.d * coord.2 + t.f)

/-- `SvgStyle` (main.rs:35-44): parsed inline style; absent field = unspecified. -/
structure SvgStyle where
  fill : Option String := none
  fill_rule : Option String := none
  stroke_width : Option ℚ := none
  stroke : Option String := none
  font_family : Option String := none
  font_size : Option ℚ := none
  dash_array : Option String := none
deriving DecidableEq, Repr, Inhabited

/-- Errors aborting the conversion: `anyhow::Error` propagated with `?`/`bail!`
    (`parseErr`) and Rust panics from `unwrap`/out-of-bounds slicing
    (`panicked`). Both are terminal. -/
inductive EngErr where
  | parseErr (msg : String)
  | panicked (msg : String)
deriving DecidableEq, Repr

/-- Smallest number of decimal digits after the point needed to write `q`
    exactly (searched up to 30; every f64 value the program prints is a
    finite decimal fraction). -/
def fracDigits (q : ℚ) : Nat :=
  ((List.range 30).find? (fun k => (q * (10 : ℚ) ^ k).den = 1)).getD 0

/-- Rust `Display` for `f64` on the finite-decimal values this program
    produces: integers print without a decimal point, other values print
    as a sign, integer part, point, and the shortest exact digit string. -/
def fmtQ (q : ℚ) : String :=
  if q.den = 1 then toString q.num
  else
    let sgn := if q < 0 then "-" else ""
    let aq : ℚ := |q|
    let k := fracDigits aq
    let n := (aq * (10 : ℚ) ^ k).num.toNat
    let ip := n / 10 ^ k
    let fp := n % 10 ^ k
    let fpStr := toString fp
    sgn ++ toString ip ++ "." ++ String.mk (List.replicate (k - fpStr.length) '0') ++ fpStr

/-- `SvgStyle::format_fill` (main.rs:47-51), returning the printed text. -/
def SvgStyle.format_fill (s : SvgStyle) : String :=
  match s.fill with
  | some fill => "fill: " ++ fill ++ ", "
  | none => ""

/-- `SvgStyle::format_stroke` (main.rs:52-68), returning the printed text. -/
def SvgStyle.format_stroke (s : SvgStyle) : String :=
  if s.stroke.isSome || s.stroke_width.isSome || s.dash_array.isSome then
    "stroke: (" ++
    (match s.stroke with
     | some paint => "paint: " ++ paint ++ ", "
     | none => "") ++
    (match s.stroke_width with
     | some thickness => "thickness: " ++ fmtQ thickness ++ "pt,"
     | none => "") ++
    (if s.dash_array.isSome then "dash: \"dashed\"," else "") ++
    "),"
  else
    "stroke: none, "

/-- One decimal digit. -/
def isDigitCh (c : Char) : Bool := '0' ≤ c && c ≤ '9'

/-- Digit string as a natural number. -/
def digitsToNat (l : List Char) : Nat :=
  l.foldl (fun acc c => acc * 10 + (c.toNat - 48)) 0

/-- `f64::from_str` of the Rust standard library (external collaborator),
    modelled on the plain decimal literals this program feeds it: optional
    sign, integer digits, optional fraction; anything else (in particular the
    empty string or remaining unit letters) fails. -/
def parseF64 (l : List Char) : Option ℚ :=
  let signRest : ℚ × List Char :=
    match l with
    | '-' :: r => (-1, r)
    | '+' :: r => (1, r)
    | r => (1, r)
  let sgn := signRest.1
  let rest := signRest.2
  let ipart := rest.takeWhile isDigitCh
  let rest2 := rest.dropWhile isDigitCh
  match rest2 with
  | [] => if ipart.isEmpty then none else some (sgn * digitsToNat ipart)
  | '.' :: fracRest =>
      let fpart := fracRest.takeWhile isDigitCh
      let rest3 := fracRest.dropWhile isDigitCh
      if rest3.isEmpty && (!ipart.isEmpty || !fpart.isEmpty) then
        some (sgn * ((digitsToNat ipart : ℚ) + (digitsToNat fpart : ℚ) / (10 : ℚ) ^ fpart.length))
      else none
  | _ => none

deriving instance DecidableEq for Except

/-- Is `pat` an initial segment of `s`? -/
def hasPfx : List Char → List Char → Bool
  | [], _ => true
  | _ :: _, [] => false
  | p :: ps, b :: bs => p == b && hasPfx ps bs

/-- Rust `str::split(c)` (external collaborator): the pieces between
    occurrences of the character `c`; the empty string yields one empty
    piece, like in Rust. -/
def splitOnCh (c : Char) : List Char → List (List Char)
  | [] => [[]]
  | a :: rest =>
    match splitOnCh c rest with
    | [] => [[]]
    | grp :: grps => if a = c then [] :: grp :: grps else (a :: grp) :: grps

/-- Rust `str::split(char::is_whitespace)` (external collaborator). -/
def splitWs : List Char → List (List Char)
  | [] => [[]]
  | a :: rest =>
    match splitWs rest with
    | [] => [[]]
    | grp :: grps => if a.isWhitespace then [] :: grp :: grps else (a :: grp) :: grps

/-- Rust `str::ends_with` (external collaborator). -/
def endsWithStr (s suffix : String) : Bool :=
  hasPfx suffix.toList (s.toList.drop (s.toList.length - suffix.toList.length))

/-- One `key:value` segment of `SvgStyle::from_str` (main.rs:74-107): the Rust
    `split(':')` yields the text before the first colon as key and the text
    between the first and second colon as value; a segment without a colon is
    an error unless empty. `stroke-width` slices off the final two bytes
    unconditionally (`&value[..value.len() - 2]`), which panics when the value
    is shorter than two bytes; `font-size` strips a trailing `px` only when
    present. -/
def styleApplyKV (r : SvgStyle) (kv : String) : Except EngErr SvgStyle :=
  match (splitOnCh ':' kv.toList).map String.mk with
  | key :: value :: _ =>
    if key = "fill" then .ok { r with fill := some value }
    else if key = "fill-rule" then .ok { r with fill_rule := some value }
    else if key = "stroke-width" then
      let cs := value.toList
      if cs.length < 2 then .error (.panicked "byte index out of bounds")
      else
        match parseF64 (cs.take (cs.length - 2)) with
        | some v => .ok { r with stroke_width := some v }
        | none => .error (.parseErr "invalid float literal")
    else if key = "stroke" then .ok { r with stroke := some value }
    else if key = "font-family" then .ok { r with font_family := some value }
    else if key = "font-size" then
      let cs := value.toList
      let core := if endsWithStr value "px" then cs.take (cs.length - 2) else cs
      match parseF64 core with
      | some v => .ok { r with font_size := some v }
      | none => .error (.parseErr "invalid float literal")
    else if key = "stroke-dasharray" then .ok { r with dash_array := some value }
    else .ok r
  | _ => if kv = "" then .ok r else .error (.parseErr ("unexpected format " ++ kv))

/-- `SvgStyle::from_str` (main.rs:74-107): split on `;`, fold the segments. -/
def SvgStyle.from_str (s : String) : Except EngErr SvgStyle :=
  ((splitOnCh ';' s.toList).map String.mk).foldlM styleApplyKV {}

/-- Scanning worker of `str::replace`: replace every leftmost non-overlapping
    occurrence of `pat` (non-empty at all call sites) by `rep`. The fuel is
    the length of the scanned text, so the recursion is structural. -/
def replaceAux (pat rep : List Char) : Nat → List Char → List Char
  | _, [] => []
  | 0, s => s
  | fuel + 1, b :: s =>
    if hasPfx pat (b :: s) && !pat.isEmpty then
      rep ++ replaceAux pat rep fuel ((b :: s).drop pat.length)
    else
      b :: replaceAux pat rep fuel s

/-- `str::replace` of the Rust standard library (external collaborator),
    on character lists. -/
def replaceList (s pat rep : List Char) : List Char :=
  replaceAux pat rep s.length s

/-- The escaping chain of `gen_content` (main.rs:132-140): five sequential
    `str::replace` calls, in source order. -/
def escapeContent (s : List Char) : List Char :=
  replaceList (replaceList (replaceList (replaceList (replaceList
    s ['$'] ['\\', '$']) ['['] ['\\', '[']) [']'] ['\\', ']']) ['/'] ['\\', '/']) ['#'] ['\\', '#']

/-- `gen_content` (main.rs:110-143), returning the printed line. -/
def gen_content (pos : ℚ × ℚ) (style : Option SvgStyle) (text_content : List Char)
    (font_scale : ℚ) : String :=
  "content((" ++ fmtQ pos.1 ++ "," ++ fmtQ pos.2 ++ "), " ++
  "anchor: \"south-west\"," ++
  (match style with
   | some st =>
     "text(" ++
     (match st.font_size with
      | some fs => "size: " ++ fmtQ (fs * font_scale) ++ "pt, "
      | none => "") ++
     (match st.font_family with
      | some ff =>
        "font: (" ++
        String.mk (replaceList (replaceList ff.toList [Char.ofNat 39] [Char.ofNat 34])
          ", monospace".toList []) ++ ", ), "
      | none => "") ++
     (match st.fill with
      | some fill => if fill ≠ "none" then "fill: " ++ fill ++ ", " else ""
      | none => "") ++
     ")"
   | none => "") ++
  "[" ++ String.mk (escapeContent text_content) ++ "]" ++ ")\n"

/-- Is `b` a UTF-8 continuation byte? -/
def isCont (b : Nat) : Bool := 0x80 ≤ b && b ≤ 0xBF

/-- Worker of `str::from_utf8` (external collaborator): standard UTF-8
    validation and decoding, rejecting overlong forms, surrogates and
    out-of-range code points. Fuel-driven so the recursion is structural;
    the fuel is at least the number of bytes. -/
def utf8Aux : Nat → List Nat → Option (List Char)
  | _, [] => some []
  | 0, _ :: _ => none
  | fuel + 1, b :: rest =>
    if b < 0x80 then
      (utf8Aux fuel rest).map (fun cs => Char.ofNat b :: cs)
    else if 0xC2 ≤ b && b ≤ 0xDF then
      match rest with
      | c1 :: rest1 =>
        if isCont c1 then
          (utf8Aux fuel rest1).map (fun cs =>
            Char.ofNat ((b - 0xC0) * 0x40 + (c1 - 0x80)) :: cs)
        else none
      | [] => none
    else if 0xE0 ≤ b && b ≤ 0xEF then
      match rest with
      | c1 :: c2 :: rest2 =>
        if (if b = 0xE0 then 0xA0 ≤ c1 && c1 ≤ 0xBF
            else if b = 0xED then 0x80 ≤ c1 && c1 ≤ 0x9F
            else isCont c1) && isCont c2 then
          (utf8Aux fuel rest2).map (fun cs =>
            Char.ofNat ((b - 0xE0) * 0x1000 + (c1 - 0x80) * 0x40 + (c2 - 0x80)) :: cs)
        else none
      | _ => none
    else if 0xF0 ≤ b && b ≤ 0xF4 then
      match rest with
      | c1 :: c2 :: c3 :: rest3 =>
        if (if b = 0xF0 then 0x90 ≤ c1 && c1 ≤ 0xBF
            else if b = 0xF4 then 0x80 ≤ c1 && c1 ≤ 0x8F
            else isCont c1) && isCont c2 && isCont c3 then
          (utf8Aux fuel rest3).map (fun cs =>
            Char.ofNat ((b - 0xF0) * 0x40000 + (c1 - 0x80) * 0x1000 +
              (c2 - 0x80) * 0x40 + (c3 - 0x80)) :: cs)
        else none
      | _ => none
    else none

/-- `str::from_utf8` of the Rust standard library (external collaborator):
    decode a byte sequence, or fail on invalid UTF-8. -/
def utf8Decode (l : List Nat) : Option (List Char) := utf8Aux l.length l

/-- `EventEntry` (main.rs:145-152): one context-stack frame. -/
structure EventEntry where
  name : String
  transform : Transform
  positions : Option (List (ℚ × ℚ))
  style : Option SvgStyle
deriving DecidableEq, Repr, Inhabited

/-- The structural events delivered by the XML reader (external collaborator):
    element-open, element-close, self-closing element, text content (as the
    raw byte sequence). End-of-stream is the end of the event list. -/
inductive XmlEvent where
  | startE (name : String) (attrs : List (String × String))
  | endE (name : String)
  | emptyE (name : String) (attrs : List (String × String))
  | textE (content : List Nat)
deriving DecidableEq, Repr

/-- `svgtypes::SimplePathSegment`: the already-simplified absolute path
    segments produced by the external path sub-parser (spec section 1:
    out-of-scope collaborator delivering move/line/cubic-curve/close). -/
inductive SimplePathSegment where
  | moveTo (x y : ℚ)
  | lineTo (x y : ℚ)
  | curveTo (x1 y1 x2 y2 x y : ℚ)
  | closePath
deriving DecidableEq, Repr

/-- The two external attribute parsers the engine calls
    (`svgtypes::Transform::from_str` and `svgtypes::SimplifyingPathParser`)
    and the caller-supplied font-scale constant. The parsers are external
    collaborators, so the engine is parameterised over them. -/
structure Ctx where
  parseT : String → Except String Transform
  parseD : String → Except String (List SimplePathSegment)
  font_scale : ℚ

/-- The `b"g"` arm of `Event::Start` (main.rs:176-213). The push statement is
    inside the attribute loop, so one entry is pushed per attribute; the
    current top is re-read (and `unwrap`ped) at each iteration. On error the
    conversion aborts; entries already pushed are returned with the error. -/
def handleG (ctx : Ctx) (stack : List EventEntry) :
    List (String × String) → List EventEntry × Option EngErr
  | [] => (stack, none)
  | (key, val) :: rest =>
    match stack with
    | [] => ([], some (.panicked "called unwrap on None"))
    | top :: _ =>
      if key = "transform" then
        match ctx.parseT val with
        | .ok t =>
          handleG ctx
            ({ name := "g", transform := transform_multiply top.transform t,
               positions := none, style := none } :: stack) rest
        | .error e => (stack, some (.parseErr e))
      else
        handleG ctx
          ({ name := "g", transform := top.transform,
             positions := none, style := none } :: stack) rest

/-- An `x`/`y` attribute value of `text` (main.rs:222-236): strip a trailing
    `px` when present, then parse as f64. -/
def parseCoord (val : String) : Option ℚ :=
  let cs := val.toList
  if endsWithStr val "px" then parseF64 (cs.take (cs.length - 2)) else parseF64 cs

/-- The `b"text"` arm of `Event::Start` (main.rs:214-252): fold the
    attributes into x, y (default 0) and an optional style, then push one
    entry with the current top transform and the single anchor. -/
def textOpenFold (attrs : List (String × String)) :
    Except EngErr (ℚ × ℚ × Option SvgStyle) :=
  attrs.foldlM (fun acc kv =>
    let (x, y, style) := acc
    if kv.1 = "x" then
      match parseCoord kv.2 with
      | some v => .ok (v, y, style)
      | none => .error (.parseErr "invalid float literal")
    else if kv.1 = "y" then
      match parseCoord kv.2 with
      | some v => .ok (x, v, style)
      | none => .error (.parseErr "invalid float literal")
    else if kv.1 = "style" then
      match SvgStyle.from_str kv.2 with
      | .ok st => .ok (x, y, some st)
      | .error e => .error e
    else .ok acc) ((0 : ℚ), (0 : ℚ), (none : Option SvgStyle))

/-- Push step of the `b"text"` arm, after the attribute fold. -/
def handleTextOpen (stack : List EventEntry) (attrs : List (String × String)) :
    List EventEntry × Option EngErr :=
  match textOpenFold attrs with
  | .error e => (stack, some e)
  | .ok (x, y, style) =>
    match stack with
    | [] => ([], some (.panicked "called unwrap on None"))
    | top :: _ =>
      ({ name := "text", transform := top.transform,
         positions := some [(x, y)], style := style } :: stack, none)

/-- An `x`/`y` attribute value of `tspan` (main.rs:282-307): split on
    whitespace, drop empty pieces, parse each with a trailing `px` stripped
    when present; a parse failure is `unwrap`ped, i.e. a panic. -/
def parseCoordList (val : String) : Except EngErr (List ℚ) :=
  (((splitWs val.toList).map String.mk).filter (fun i => i ≠ "")).mapM (fun i =>
    match parseCoord i with
    | some v => .ok v
    | none => .error (.panicked "called unwrap on Err"))

/-- The `b"tspan"` arm of `Event::Start` (main.rs:274-326): fold the
    attributes into x/y lists, resolve the style by scanning the stack from
    the top for the first entry carrying one, then push one entry with the
    current top transform and the elementwise-zipped anchor list. -/
def tspanOpenFold (attrs : List (String × String)) :
    Except EngErr (List ℚ × List ℚ) :=
  attrs.foldlM (fun acc kv =>
    if kv.1 = "x" then (parseCoordList kv.2).map (fun l => (l, acc.2))
    else if kv.1 = "y" then (parseCoordList kv.2).map (fun l => (acc.1, l))
    else .ok acc) (([] : List ℚ), ([] : List ℚ))

/-- Push step of the `b"tspan"` arm, after the attribute fold. -/
def handleTspanOpen (stack : List EventEntry) (attrs : List (String × String)) :
    List EventEntry × Option EngErr :=
  match tspanOpenFold attrs with
  | .error e => (stack, some e)
  | .ok (x, y) =>
    let style := stack.findSome? (fun e => e.style)
    match stack with
    | [] => ([], some (.panicked "called unwrap on None"))
    | top :: _ =>
      ({ name := "tspan", transform := top.transform,
         positions := some (x.zip y), style := style } :: stack, none)

/-- The per-character emission loop of the `tspan` branch of `Event::Text`
    (main.rs:355-367): each byte is decoded as a one-byte string
    (`str::from_utf8(&[*ch])?`) and emitted at its zipped anchor; a decode
    failure aborts, keeping the output already printed. -/
def emitTspanPairs (topT : Transform) (style : Option SvgStyle) (fs : ℚ) :
    List (Nat × (ℚ × ℚ)) → String × Option EngErr
  | [] => ("", none)
  | (b, pos) :: rest =>
    match utf8Decode [b] with
    | none => ("", some (.parseErr "invalid utf-8"))
    | some cs =>
      let line := gen_content (apply_transform pos topT) style cs fs
      let tail := emitTspanPairs topT style fs rest
      (line ++ tail.1, tail.2)

/-- The predicate `Event::Text` searches the stack with (main.rs:335-338). -/
def isTextParent (i : EventEntry) : Bool := i.name = "text" || i.name = "tspan"

/-- The `Event::Text` arm (main.rs:334-389): find the nearest enclosing
    `text`/`tspan` entry from the top of the stack; missing container or
    missing anchors abort; otherwise emit the content at the anchor(s),
    transformed by the current top-of-stack transform. -/
def handleTextContent (ctx : Ctx) (stack : List EventEntry) (bytes : List Nat) :
    String × Option EngErr :=
  match stack.find? isTextParent with
  | none => ("", some (.parseErr "cannot find parent for text"))
  | some parent =>
    match parent.positions with
    | some positions =>
      if positions.isEmpty then ("", some (.parseErr "No positions found for text"))
      else
        match stack with
        | [] => ("", some (.panicked "called unwrap on None"))
        | top :: _ =>
          if parent.name = "text" then
            match utf8Decode bytes with
            | some cs =>
              (gen_content (apply_transform positions.headI top.transform)
                parent.style cs ctx.font_scale, none)
            | none => ("", some (.parseErr "invalid utf-8"))
          else if parent.name = "tspan" then
            if 1 < positions.length then
              emitTspanPairs top.transform parent.style ctx.font_scale (bytes.zip positions)
            else
              match utf8Decode bytes with
              | some cs =>
                (gen_content (apply_transform positions.headI top.transform)
                  parent.style cs ctx.font_scale, none)
              | none => ("", some (.parseErr "invalid utf-8"))
          else ("", none)
    | none => ("", some (.parseErr "No positions found for text"))

/-- The `b"rect"` arm of `Event::Empty` (main.rs:393-431): numeric attributes
    default to 0, the style is a plain (non-optional) record defaulting to
    all-absent, and both fill and stroke formatters always run. -/
def handleRect (parentT : Transform) (attrs : List (String × String)) :
    String × Option EngErr :=
  let folded : Except EngErr (ℚ × ℚ × ℚ × ℚ × SvgStyle) :=
    attrs.foldlM (fun acc kv =>
      let (x, y, w, h, style) := acc
      if kv.1 = "x" then
        match parseF64 kv.2.toList with
        | some v => .ok (v, y, w, h, style)
        | none => .error (.parseErr "invalid float literal")
      else if kv.1 = "y" then
        match parseF64 kv.2.toList with
        | some v => .ok (x, v, w, h, style)
        | none => .error (.parseErr "invalid float literal")
      else if kv.1 = "width" then
        match parseF64 kv.2.toList with
        | some v => .ok (x, y, v, h, style)
        | none => .error (.parseErr "invalid float literal")
      else if kv.1 = "height" then
        match parseF64 kv.2.toList with
        | some v => .ok (x, y, w, v, style)
        | none => .error (.parseErr "invalid float literal")
      else if kv.1 = "style" then
        match SvgStyle.from_str kv.2 with
        | .ok st => .ok (x, y, w, h, st)
        | .error e => .error e
      else .ok acc) ((0 : ℚ), (0 : ℚ), (0 : ℚ), (0 : ℚ), ({} : SvgStyle))
  match folded with
  | .error e => ("", some e)
  | .ok (x, y, w, h, style) =>
    let p1 := apply_transform (x, y) parentT
    let p2 := apply_transform (x + w, y + h) parentT
    ("rect((" ++ fmtQ p1.1 ++ ", " ++ fmtQ p1.2 ++ "), (" ++ fmtQ p2.1 ++ ", " ++
      fmtQ p2.2 ++ "), " ++ style.format_fill ++ style.format_stroke ++ ")\n", none)

/-- The segment loop of the `b"path"` arm (main.rs:469-512): a move updates
    the running point without output; every line/curve prints its own line,
    with the stroke of the segment style when a style is present, and updates the
    running point to the transformed endpoint; a close is a no-op. -/
def emitPathSegs (style : Option SvgStyle) (t : Transform) :
    (ℚ × ℚ) → List SimplePathSegment → String
  | _, [] => ""
  | lp, seg :: rest =>
    match seg with
    | .moveTo x y => emitPathSegs style t (apply_transform (x, y) t) rest
    | .lineTo x y =>
      let p := apply_transform (x, y) t
      "line((" ++ fmtQ lp.1 ++ ", " ++ fmtQ lp.2 ++ "), (" ++ fmtQ p.1 ++ ", " ++
        fmtQ p.2 ++ ")," ++
        (match style with
         | some st => st.format_stroke
         | none => "") ++ ")\n" ++
      emitPathSegs style t p rest
    | .curveTo x1 y1 x2 y2 x y =>
      let c1 := apply_transform (x1, y1) t
      let c2 := apply_transform (x2, y2) t
      let p := apply_transform (x, y) t
      "bezier((" ++ fmtQ lp.1 ++ ", " ++ fmtQ lp.2 ++ "), (" ++ fmtQ p.1 ++ ", " ++
        fmtQ p.2 ++ "), (" ++ fmtQ c1.1 ++ ", " ++ fmtQ c1.2 ++ "), (" ++
        fmtQ c2.1 ++ ", " ++ fmtQ c2.2 ++ ")," ++
        (match style with
         | some st => st.format_stroke
         | none => "") ++ ")\n" ++
      emitPathSegs style t p rest
    | .closePath => emitPathSegs style t lp rest

/-- The emission part of the `b"path"` arm (main.rs:456-516): when the style
    has a fill other than the literal "none", the segment output is wrapped
    in a `merge-path` header carrying fill and stroke; the running point
    starts at (0,0). -/
def handlePathBody (segments : Option (List SimplePathSegment))
    (style : Option SvgStyle) (t : Transform) : String :=
  match segments with
  | none => ""
  | some segs =>
    let merge : Bool :=
      match style with
      | some st =>
        match st.fill with
        | some fill => fill ≠ "none"
        | none => false
      | none => false
    if merge then
      (match style with
       | some st => "merge-path(" ++ st.format_fill ++ st.format_stroke ++ "\x7b\n"
       | none => "") ++
      emitPathSegs style t (0, 0) segs ++ "\x7d)\n"
    else
      emitPathSegs style t (0, 0) segs

/-- The `b"path"` arm of `Event::Empty` (main.rs:432-517): fold the
    attributes (`d` through the external path sub-parser, `style` through the
    style parser), then emit. -/
def handlePath (ctx : Ctx) (parentT : Transform) (attrs : List (String × String)) :
    String × Option EngErr :=
  let folded : Except EngErr (Option (List SimplePathSegment) × Option SvgStyle) :=
    attrs.foldlM (fun acc kv =>
      if kv.1 = "d" then
        match ctx.parseD kv.2 with
        | .ok segs => .ok (some segs, acc.2)
        | .error e => .error (.parseErr e)
      else if kv.1 = "style" then
        match SvgStyle.from_str kv.2 with
        | .ok st => .ok (acc.1, some st)
        | .error e => .error e
      else .ok acc) ((none : Option (List SimplePathSegment)), (none : Option SvgStyle))
  match folded with
  | .error e => ("", some e)
  | .ok (segments, style) => (handlePathBody segments style parentT, none)

/-- The `b"ellipse"` arm of `Event::Empty` (main.rs:518-565): the style is an
    `Option` defaulting to `None`; the formatters run only when a style
    attribute was present. -/
def handleEllipse (parentT : Transform) (attrs : List (String × String)) :
    String × Option EngErr :=
  let folded : Except EngErr (ℚ × ℚ × ℚ × ℚ × Option SvgStyle) :=
    attrs.foldlM (fun acc kv =>
      let (cx, cy, rx, ry, style) := acc
      if kv.1 = "cx" then
        match parseF64 kv.2.toList with
        | some v => .ok (v, cy, rx, ry, style)
        | none => .error (.parseErr "invalid float literal")
      else if kv.1 = "cy" then
        match parseF64 kv.2.toList with
        | some v => .ok (cx, v, rx, ry, style)
        | none => .error (.parseErr "invalid float literal")
      else if kv.1 = "rx" then
        match parseF64 kv.2.toList with
        | some v => .ok (cx, cy, v, ry, style)
        | none => .error (.parseErr "invalid float literal")
      else if kv.1 = "ry" then
        match parseF64 kv.2.toList with
        | some v => .ok (cx, cy, rx, v, style)
        | none => .error (.parseErr "invalid float literal")
      else if kv.1 = "style" then
        match SvgStyle.from_str kv.2 with
        | .ok st => .ok (cx, cy, rx, ry, some st)
        | .error e => .error e
      else .ok acc) ((0 : ℚ), (0 : ℚ), (0 : ℚ), (0 : ℚ), (none : Option SvgStyle))
  match folded with
  | .error e => ("", some e)
  | .ok (cx, cy, rx, ry, style) =>
    let c := apply_transform (cx, cy) parentT
    let r := apply_transform (cx + rx, cy + ry) parentT
    ("circle((" ++ fmtQ c.1 ++ ", " ++ fmtQ c.2 ++ "), radius: (" ++
      fmtQ (r.1 - c.1) ++ ", " ++ fmtQ (r.2 - c.2) ++ "), " ++
      (match style with
       | some st => st.format_fill ++ st.format_stroke
       | none => "") ++ ")\n", none)

/-- The `b"circle"` arm of `Event::Empty` (main.rs:566-603): like `ellipse`
    with a single radius; the style is an `Option` defaulting to `None`, so
    with no style attribute neither formatter runs. -/
def handleCircle (parentT : Transform) (attrs : List (String × String)) :
    String × Option EngErr :=
  let folded : Except EngErr (ℚ × ℚ × ℚ × Option SvgStyle) :=
    attrs.foldlM (fun acc kv =>
      let (cx, cy, r, style) := acc
      if kv.1 = "cx" then
        match parseF64 kv.2.toList with
        | some v => .ok (v, cy, r, style)
        | none => .error (.parseErr "invalid float literal")
      else if kv.1 = "cy" then
        match parseF64 kv.2.toList with
        | some v => .ok (cx, v, r, style)
        | none => .error (.parseErr "invalid float literal")
      else if kv.1 = "r" then
        match parseF64 kv.2.toList with
        | some v => .ok (cx, cy, v, style)
        | none => .error (.parseErr "invalid float literal")
      else if kv.1 = "style" then
        match SvgStyle.from_str kv.2 with
        | .ok st => .ok (cx, cy, r, some st)
        | .error e => .error e
      else .ok acc) ((0 : ℚ), (0 : ℚ), (0 : ℚ), (none : Option SvgStyle))
  match folded with
  | .error e => ("", some e)
  | .ok (cx, cy, r, style) =>
    let c := apply_transform (cx, cy) parentT
    let rp := apply_transform (cx + r, cy + r) parentT
    ("circle((" ++ fmtQ c.1 ++ ", " ++ fmtQ c.2 ++ "), radius: " ++
      fmtQ (rp.1 - c.1) ++ ", " ++
      (match style with
       | some st => st.format_fill ++ st.format_stroke
       | none => "") ++ ")\n", none)

/-- The `Event::Empty` arm (main.rs:390-605): the parent frame is read with
    `unwrap` before dispatch (a panic when the stack is empty, whatever the
    element is); the stack itself is never changed. -/
def handleEmpty (ctx : Ctx) (stack : List EventEntry) (name : String)
    (attrs : List (String × String)) : String × Option EngErr :=
  match stack with
  | [] => ("", some (.panicked "called unwrap on None"))
  | parent :: _ =>
    if name = "rect" then handleRect parent.transform attrs
    else if name = "path" then handlePath ctx parent.transform attrs
    else if name = "ellipse" then handleEllipse parent.transform attrs
    else if name = "circle" then handleCircle parent.transform attrs
    else ("", none)

/-- One iteration of the event loop of `handle_event` (main.rs:166-610):
    returns the new stack, the text printed by this event, and the error that
    aborts the conversion, if any. `Event::End` pops if and only if the top
    name of the top entry matches (`pop_if`, main.rs:172-174). -/
def stepEvent (ctx : Ctx) (stack : List EventEntry) :
    XmlEvent → List EventEntry × String × Option EngErr
  | .endE name =>
    (match stack with
     | top :: rest => if top.name = name then rest else stack
     | [] => [],
     "", none)
  | .startE name attrs =>
    if name = "g" then
      let r := handleG ctx stack attrs
      (r.1, "", r.2)
    else if name = "text" then
      let r := handleTextOpen stack attrs
      (r.1, "", r.2)
    else if name = "tspan" then
      let r := handleTspanOpen stack attrs
      (r.1, "", r.2)
    else (stack, "", none)
  | .textE bytes =>
    let r := handleTextContent ctx stack bytes
    (stack, r.1, r.2)
  | .emptyE name attrs =>
    let r := handleEmpty ctx stack name attrs
    (stack, r.1, r.2)

/-- The event loop of `handle_event` (main.rs:166-611): fold the events,
    stopping at the first error; the output printed before the abort is
    kept. -/
def processEvents (ctx : Ctx) :
    List XmlEvent → List EventEntry → String →
    List EventEntry × String × Option EngErr
  | [], stack, out => (stack, out, none)
  | ev :: rest, stack, out =>
    match stepEvent ctx stack ev with
    | (stack2, o, some e) => (stack2, out ++ o, some e)
    | (stack2, o, none) => processEvents ctx rest stack2 (out ++ o)

/-- The initial context frame (main.rs:159-164). -/
def rootEntry (t : Transform) : EventEntry :=
  { name := "root", transform := t, positions := none, style := none }

/-- `handle_event` (main.rs:154-613): run the whole event stream starting
    from a stack holding only the root entry. -/
def handle_event (ctx : Ctx) (root_transform : Transform) (events : List XmlEvent) :
    List EventEntry × String × Option EngErr :=
  processEvents ctx events [rootEntry root_transform] ""

/-- A concrete engine context whose external parsers are never exercised. -/
def ctxTriv : Ctx :=
  { parseT := fun _ => .error "unmodelled transform"
    parseD := fun _ => .error "unmodelled path"
    font_scale := 1 }

/-- A concrete engine context whose path sub-parser returns the documented
    simplified segments for the two path strings the scenarios use (external
    collaborator instantiated at its specified boundary). -/
def ctxPath : Ctx :=
  { parseT := fun _ => .error "unmodelled transform"
    parseD := fun s =>
      if s = "M0 0 L10 0 L10 10" then
        .ok [.moveTo 0 0, .lineTo 10 0, .lineTo 10 10]
      else if s = "M0 0 L10 0" then
        .ok [.moveTo 0 0, .lineTo 10 0]
      else .error "unmodelled path"
    font_scale := 1 }

/-- Map a character function over a list and concatenate the pieces. -/
def concatMap (f : Char → List Char) : List Char → List Char
  | [] => []
  | a :: s => f a ++ concatMap f s

/-- Modelled from the words of the spec (section 4.5), the refinement target for
    the escaping rule: each of `$`, `[`, `]`, `/`, `#` becomes a backslash
    followed by that character; every other character is unchanged. -/
def specCharEscape (a : Char) : List Char :=
  if a = '$' || a = '[' || a = ']' || a = '/' || a = '#' then ['\\', a] else [a]

/-- Does this event close an element named "root"? -/
def isRootClose : XmlEvent → Bool
  | .endE name => name = "root"
  | _ => false

/-- Concatenate a list of output lines. -/
def joinStrs : List String → String
  | [] => ""
  | s :: rest => s ++ joinStrs rest

/-- A concrete engine context whose transform parser recognises one
    attribute string (a scale-by-2 matrix). -/
def ctxT1 : Ctx :=
  { parseT := fun s => if s = "demo" then .ok ⟨2, 0, 0, 2, 0, 0⟩ else .error "unmodelled transform"
    parseD := fun _ => .error "unmodelled path"
    font_scale := 1 }

/-- C7: for all affine transforms O, I and all points p, applying the
    composed transform equals applying them in sequence:
    `apply_transform p (transform_multiply O I) =
     apply_transform (apply_transform p I) O`, exactly over the rationals. -/
theorem C7_compose_apply (O I : Transform) (p : ℚ × ℚ) :
    apply_transform p (transform_multiply O I) =
      apply_transform (apply_transform p I) O := by
  simp only [apply_transform, transform_multiply, Prod.mk.injEq]
  constructor <;> ring

unseal Rat.add Rat.mul Rat.sub Rat.inv Rat.ofScientific in
/-- C4 counterexample: a `circle` with cx=10, cy=10, r=5 and NO style
    attribute, under the identity root transform, emits
    `circle((10, 10), radius: 5, )` — the style variable is an `Option`
    defaulting to `None`, so neither formatter runs and the claimed explicit
    `stroke: none, ` marker is NOT emitted. -/
theorem C4_counterexample :
    (handle_event ctxTriv idTransform
      [.emptyE "circle" [("cx", "10"), ("cy", "10"), ("r", "5")]]).2.1 =
      "circle((10, 10), radius: 5, )\n" ∧
    (handle_event ctxTriv idTransform
      [.emptyE "circle" [("cx", "10"), ("cy", "10"), ("r", "5")]]).2.1 ≠
      "circle((10, 10), radius: 5, stroke: none, )\n" := by
  exact ⟨by decide, by decide⟩

unseal Rat.add Rat.mul Rat.sub Rat.inv Rat.ofScientific in
/-- C4 (amended): a circle with cx=10, cy=10, r=5 and no style attribute
    under the identity root transform emits `circle((10, 10), radius: 5, )`
    with no stroke marker at all; the explicit `stroke: none, ` marker is
    emitted only when a style attribute is present (here the empty style)
    without any of paint/thickness/dash. -/
theorem C4_thm :
    handle_event ctxTriv idTransform
      [.emptyE "circle" [("cx", "10"), ("cy", "10"), ("r", "5")]] =
      ([rootEntry idTransform], "circle((10, 10), radius: 5, )\n", none) ∧
    handle_event ctxTriv idTransform
      [.emptyE "circle" [("cx", "10"), ("cy", "10"), ("r", "5"), ("style", "")]] =
      ([rootEntry idTransform], "circle((10, 10), radius: 5, stroke: none, )\n", none) := by
  exact ⟨by decide, by decide⟩

unseal Rat.add Rat.mul Rat.sub Rat.inv Rat.ofScientific in
/-- C5: the code under `stroke-width` slices off the final two bytes of the
    value unconditionally (`&value[..value.len() - 2]`), so the plain numeric
    value `100` parses "successfully" to thickness 1 (not 100), and the
    one-byte value `5` panics on the out-of-range slice; only suffixed values
    such as `1px` give the intended thickness. This contradicts the claim
    that unit suffixes are stripped only when present and that plain numeric
    values parse to that number without a wrong thickness or a crash. -/
theorem C5_stroke_width_slice :
    SvgStyle.from_str "stroke-width:100" = .ok { stroke_width := some 1 } ∧
    ((1 : ℚ) ≠ 100) ∧
    SvgStyle.from_str "stroke-width:5" = .error (.panicked "byte index out of bounds") ∧
    SvgStyle.from_str "stroke-width:1px" = .ok { stroke_width := some 1 } := by
  refine ⟨by decide, by norm_num, by decide, by decide⟩

unseal Rat.add Rat.mul Rat.sub Rat.inv Rat.ofScientific in
/-- C2 counterexample: a path whose style has fill `#f00` (present,
    not "none") and a stroke is emitted as a `merge-path` group, but the
    `line` body INSIDE the group still carries its own stroke descriptor
    (main.rs:480-482 runs regardless of the merge flag), so the style is not
    applied only once at the group level as the claim states. -/
theorem C2_counterexample :
    handle_event ctxPath idTransform
      [.emptyE "path" [("d", "M0 0 L10 0"), ("style", "fill:#f00;stroke:#000;stroke-width:1px")]] =
      ([rootEntry idTransform],
       "merge-path(fill: #f00, stroke: (paint: #000, thickness: 1pt,),\x7b\nline((0, 0), (10, 0),stroke: (paint: #000, thickness: 1pt,),)\n\x7d)\n",
       none) ∧
    ("merge-path(fill: #f00, stroke: (paint: #000, thickness: 1pt,),\x7b\nline((0, 0), (10, 0),stroke: (paint: #000, thickness: 1pt,),)\n\x7d)\n" : String) ≠
      "merge-path(fill: #f00, stroke: (paint: #000, thickness: 1pt,),\x7b\nline((0, 0), (10, 0),)\n\x7d)\n" :=
  ⟨by decide, by decide⟩

unseal Rat.add Rat.mul Rat.sub Rat.inv Rat.ofScientific in
/-- C2 (amended): if the resolved style has a fill paint present and not the
    literal "none", the path segments are emitted as one `merge-path` group
    whose header carries fill and stroke once, and each line/curve segment
    inside the group additionally carries its own stroke descriptor;
    otherwise (fill absent or "none") each segment is emitted independently
    with its own stroke-only style. In particular the path
    `d="M0 0 L10 0 L10 10"` with `fill:none;stroke:#000;stroke-width:1px`
    emits exactly two independent `line(...)` primitives, each carrying the
    stroke descriptor, and no merge-path group. -/
theorem C2_thm :
    (∀ (segs : List SimplePathSegment) (st : SvgStyle) (t : Transform) (fill : String),
      st.fill = some fill → fill ≠ "none" →
      handlePathBody (some segs) (some st) t =
        "merge-path(" ++ st.format_fill ++ st.format_stroke ++ "\x7b\n" ++
          emitPathSegs (some st) t (0, 0) segs ++ "\x7d)\n") ∧
    (∀ (segs : List SimplePathSegment) (st : SvgStyle) (t : Transform),
      st.fill = none ∨ st.fill = some "none" →
      handlePathBody (some segs) (some st) t = emitPathSegs (some st) t (0, 0) segs) ∧
    handle_event ctxPath idTransform
      [.emptyE "path" [("d", "M0 0 L10 0 L10 10"), ("style", "fill:none;stroke:#000;stroke-width:1px")]] =
      ([rootEntry idTransform],
       "line((0, 0), (10, 0),stroke: (paint: #000, thickness: 1pt,),)\n" ++
       "line((10, 0), (10, 10),stroke: (paint: #000, thickness: 1pt,),)\n",
       none) := by
  refine ⟨?_, ?_, by decide⟩
  · intro segs st t fill hf hne
    simp [handlePathBody, hf, hne]
  · intro segs st t h
    rcases h with h | h <;> simp [handlePathBody, h]

unseal Rat.add Rat.mul Rat.sub Rat.inv Rat.ofScientific in
/-- Witness for C2: both branch characterisations instantiated at concrete
    styles and segments. -/
theorem C2_witness :
    handlePathBody (some [.moveTo 0 0, .lineTo 10 0]) (some { fill := some "#f00" }) idTransform =
      "merge-path(" ++ SvgStyle.format_fill { fill := some "#f00" } ++
        SvgStyle.format_stroke { fill := some "#f00" } ++ "\x7b\n" ++
        emitPathSegs (some { fill := some "#f00" }) idTransform (0, 0)
          [.moveTo 0 0, .lineTo 10 0] ++ "\x7d)\n" ∧
    handlePathBody (some [.lineTo 10 0]) (some { fill := some "none" }) idTransform =
      emitPathSegs (some { fill := some "none" }) idTransform (0, 0) [.lineTo 10 0] :=
  ⟨C2_thm.1 _ _ _ "#f00" rfl (by decide), C2_thm.2.1 _ _ _ (Or.inr rfl)⟩

/-- A successful run of the `g` attribute loop grows the stack by exactly
    the number of attributes (the push is inside the loop). -/
theorem handleG_ok_length (ctx : Ctx) :
    ∀ (attrs : List (String × String)) (stack stack2 : List EventEntry),
      handleG ctx stack attrs = (stack2, none) →
      stack2.length = stack.length + attrs.length := by
  intro attrs
  induction attrs with
  | nil =>
    intro stack stack2 h
    simp only [handleG] at h
    cases h
    simp
  | cons kv rest ih =>
    intro stack stack2 h
    obtain ⟨k, v⟩ := kv
    cases stack with
    | nil => simp [handleG] at h
    | cons top s =>
      simp only [handleG] at h
      by_cases hk : k = "transform"
      · rw [if_pos hk] at h
        cases htr : ctx.parseT v with
        | ok t =>
          rw [htr] at h
          have := ih _ _ h
          simp only [List.length_cons] at this ⊢
          omega
        | error e => rw [htr] at h; simp at h
      · rw [if_neg hk] at h
        have := ih _ _ h
        simp only [List.length_cons] at this ⊢
        omega

/-- C1 (amended): for a `g`-open event one context entry is pushed per
    ATTRIBUTE, not per element: with no attributes nothing is pushed; a
    single transform attribute pushes one entry whose transform is
    `transform_multiply` of the current top transform and the parsed
    attribute transform; a single non-transform attribute pushes one entry
    copying the current top transform; in general a successful `g`-open
    grows the stack by exactly the attribute count, so a matching close
    (which pops at most one entry) balances only for one-attribute
    elements. -/
theorem C1_thm (ctx : Ctx) (top : EventEntry) (rest : List EventEntry) :
    handleG ctx (top :: rest) [] = (top :: rest, none) ∧
    (∀ s T, ctx.parseT s = .ok T →
      handleG ctx (top :: rest) [("transform", s)] =
        ({ name := "g", transform := transform_multiply top.transform T,
           positions := none, style := none } :: top :: rest, none)) ∧
    (∀ k v, k ≠ "transform" →
      handleG ctx (top :: rest) [(k, v)] =
        ({ name := "g", transform := top.transform,
           positions := none, style := none } :: top :: rest, none)) ∧
    (∀ attrs stack2, handleG ctx (top :: rest) attrs = (stack2, none) →
      stack2.length = rest.length + 1 + attrs.length) := by
  refine ⟨rfl, ?_, ?_, ?_⟩
  · intro s T h
    simp [handleG, h]
  · intro k v hk
    simp [handleG, hk]
  · intro attrs stack2 h
    have := handleG_ok_length ctx attrs (top :: rest) stack2 h
    simp only [List.length_cons] at this
    omega

/-- C1 counterexample: a `g`-open with no attributes pushes NO entry (the
    stack keeps only the root), and a `g`-open with two non-transform
    attributes pushes TWO entries — the claimed "exactly one context entry
    is pushed" fails in both directions, because the push statement sits
    inside the attribute loop (main.rs:177-213). -/
theorem C1_counterexample :
    (handle_event ctxTriv idTransform [.startE "g" []]).1 = [rootEntry idTransform] ∧
    (handle_event ctxTriv idTransform [.startE "g" [("id", "a"), ("fill", "red")]]).1.length = 3 :=
  ⟨by decide, by decide⟩

/-- Witness for C1: the four parts instantiated at the root stack, with a
    recognised transform attribute, a non-transform attribute, and the
    length law at one attribute. -/
theorem C1_witness :
    handleG ctxT1 [rootEntry idTransform] [] = ([rootEntry idTransform], none) ∧
    handleG ctxT1 [rootEntry idTransform] [("transform", "demo")] =
      ({ name := "g", transform := transform_multiply idTransform ⟨2, 0, 0, 2, 0, 0⟩,
         positions := none, style := none } :: [rootEntry idTransform], none) ∧
    handleG ctxT1 [rootEntry idTransform] [("id", "a")] =
      ({ name := "g", transform := (rootEntry idTransform).transform,
         positions := none, style := none } :: [rootEntry idTransform], none) ∧
    ({ name := "g", transform := (rootEntry idTransform).transform,
       positions := none, style := none } :: [rootEntry idTransform] : List EventEntry).length =
      0 + 1 + 1 := by
  have h := C1_thm ctxT1 (rootEntry idTransform) []
  exact ⟨h.1, h.2.1 "demo" ⟨2, 0, 0, 2, 0, 0⟩ rfl, h.2.2.1 "id" "a" (by decide),
    h.2.2.2 [("id", "a")] _ (h.2.2.1 "id" "a" (by decide))⟩

/-- Entries pushed by the `g` attribute loop sit on top of the old stack. -/
theorem handleG_suffix (ctx : Ctx) :
    ∀ (attrs : List (String × String)) (stack : List EventEntry),
      ∃ l, (handleG ctx stack attrs).1 = l ++ stack := by
  intro attrs
  induction attrs with
  | nil => intro stack; exact ⟨[], rfl⟩
  | cons kv rest ih =>
    intro stack
    obtain ⟨k, v⟩ := kv
    cases stack with
    | nil => exact ⟨[], rfl⟩
    | cons top s =>
      simp only [handleG]
      by_cases hk : k = "transform"
      · rw [if_pos hk]
        cases htr : ctx.parseT v with
        | ok t =>
          obtain ⟨l, hl⟩ :=
            ih ({ name := "g", transform := transform_multiply top.transform t,
                  positions := none, style := none } :: top :: s)
          exact ⟨l ++ [{ name := "g", transform := transform_multiply top.transform t,
                         positions := none, style := none }], by rw [hl]; simp⟩
        | error e => exact ⟨[], rfl⟩
      · rw [if_neg hk]
        obtain ⟨l, hl⟩ :=
          ih ({ name := "g", transform := top.transform,
                positions := none, style := none } :: top :: s)
        exact ⟨l ++ [{ name := "g", transform := top.transform,
                       positions := none, style := none }], by rw [hl]; simp⟩

/-- A `text`-open leaves the old stack below whatever it pushes. -/
theorem handleTextOpen_suffix (stack : List EventEntry) (attrs : List (String × String)) :
    ∃ l, (handleTextOpen stack attrs).1 = l ++ stack := by
  unfold handleTextOpen
  cases textOpenFold attrs with
  | error e => exact ⟨[], rfl⟩
  | ok xys =>
    obtain ⟨x, y, style⟩ := xys
    cases stack with
    | nil => exact ⟨[], rfl⟩
    | cons top s => exact ⟨[_], rfl⟩

/-- A `tspan`-open leaves the old stack below whatever it pushes. -/
theorem handleTspanOpen_suffix (stack : List EventEntry) (attrs : List (String × String)) :
    ∃ l, (handleTspanOpen stack attrs).1 = l ++ stack := by
  unfold handleTspanOpen
  cases tspanOpenFold attrs with
  | error e => exact ⟨[], rfl⟩
  | ok xy =>
    obtain ⟨x, y⟩ := xy
    cases stack with
    | nil => exact ⟨[], rfl⟩
    | cons top s => exact ⟨[_], rfl⟩

/-- One step of the event loop keeps a bottom entry named "root" at the
    bottom, provided the event is not a close named "root". -/
theorem stepEvent_root (ctx : Ctx) (ev : XmlEvent) (l : List EventEntry) (re : EventEntry)
    (hre : re.name = "root") (hev : isRootClose ev = false) :
    ∃ l2, (stepEvent ctx (l ++ [re]) ev).1 = l2 ++ [re] := by
  cases ev with
  | endE name =>
    have hname : ¬(name = "root") := by simpa [isRootClose] using hev
    cases l with
    | nil =>
      simp only [List.nil_append, stepEvent]
      rw [if_neg (by rw [hre]; exact fun hcon => hname hcon.symm)]
      exact ⟨[], rfl⟩
    | cons e l2 =>
      simp only [List.cons_append, stepEvent]
      by_cases he : e.name = name
      · rw [if_pos he]; exact ⟨l2, rfl⟩
      · rw [if_neg he]; exact ⟨e :: l2, rfl⟩
  | startE name attrs =>
    simp only [stepEvent]
    by_cases h1 : name = "g"
    · rw [if_pos h1]
      obtain ⟨l0, hl0⟩ := handleG_suffix ctx attrs (l ++ [re])
      exact ⟨l0 ++ l, by rw [hl0, List.append_assoc]⟩
    · rw [if_neg h1]
      by_cases h2 : name = "text"
      · rw [if_pos h2]
        obtain ⟨l0, hl0⟩ := handleTextOpen_suffix (l ++ [re]) attrs
        exact ⟨l0 ++ l, by rw [hl0, List.append_assoc]⟩
      · rw [if_neg h2]
        by_cases h3 : name = "tspan"
        · rw [if_pos h3]
          obtain ⟨l0, hl0⟩ := handleTspanOpen_suffix (l ++ [re]) attrs
          exact ⟨l0 ++ l, by rw [hl0, List.append_assoc]⟩
        · rw [if_neg h3]
          exact ⟨l, rfl⟩
  | textE bytes => exact ⟨l, rfl⟩
  | emptyE name attrs => exact ⟨l, rfl⟩

/-- The event loop keeps a bottom entry named "root" at the bottom as long
    as no close event is named "root". -/
theorem processEvents_root (ctx : Ctx) :
    ∀ (events : List XmlEvent) (l : List EventEntry) (re : EventEntry) (out : String),
      re.name = "root" → (∀ ev ∈ events, isRootClose ev = false) →
      ∃ l2, (processEvents ctx events (l ++ [re]) out).1 = l2 ++ [re] := by
  intro events
  induction events with
  | nil => intro l re out hre hh; exact ⟨l, rfl⟩
  | cons ev rest ih =>
    intro l re out hre hh
    obtain ⟨l2, hl2⟩ := stepEvent_root ctx ev l re hre (hh ev (List.mem_cons_self ev rest))
    simp only [processEvents]
    rcases hstep : stepEvent ctx (l ++ [re]) ev with ⟨stack2, o, err⟩
    rw [hstep] at hl2
    have hs2 : stack2 = l2 ++ [re] := hl2
    subst hs2
    cases err with
    | some e => exact ⟨l2, rfl⟩
    | none => exact ih l2 re (out ++ o) hre (fun x hx => hh x (List.mem_cons_of_mem ev hx))

/-- C9 (amended): the root context entry of the engine stays at the bottom of
    the stack — and the stack stays non-empty — throughout any event
    sequence that contains no close event named "root". (A close event
    named "root" while the root entry is on top DOES pop it, see the
    counterexample, after which a leaf-shape event panics on the
    `unwrap` of the top of the empty stack.) -/
theorem C9_thm (ctx : Ctx) (rt : Transform) (events : List XmlEvent)
    (h : ∀ ev ∈ events, isRootClose ev = false) :
    ∃ l, (handle_event ctx rt events).1 = l ++ [rootEntry rt] ∧
         (handle_event ctx rt events).1 ≠ [] := by
  obtain ⟨l2, hl⟩ := processEvents_root ctx events [] (rootEntry rt) "" rfl h
  refine ⟨l2, by simpa using hl, ?_⟩
  have : (processEvents ctx events ([] ++ [rootEntry rt]) "").1 = l2 ++ [rootEntry rt] := hl
  simp only [List.nil_append] at this
  simp [handle_event, this]

/-- C9 counterexample: an input whose stream contains a close event named
    "root" (here `<a><root></root><rect/></a>`-style events) pops the
    root entry of the engine — `pop_if` matches the own name of the root entry — and
    the following self-closing element panics on `unwrap`, so the root entry
    is NOT never-removed and top-of-stack access is NOT always defined. -/
theorem C9_counterexample :
    handle_event ctxTriv idTransform [.startE "root" [], .endE "root", .emptyE "rect" []] =
      ([], "", some (.panicked "called unwrap on None")) :=
  by decide

/-- Witness for C9: a stream with one close event not named "root". -/
theorem C9_witness :
    ∃ l, (handle_event ctxTriv idTransform [.endE "g"]).1 = l ++ [rootEntry idTransform] ∧
         (handle_event ctxTriv idTransform [.endE "g"]).1 ≠ [] :=
  C9_thm ctxTriv idTransform [.endE "g"] (by decide)

/-- C6: a text-content event with no enclosing `text`/`tspan` entry anywhere
    on the stack (searched from the top) aborts the whole conversion with a
    fatal error, and so does one whose found enclosing entry has no anchors
    (a missing or empty position list); in both cases no output is produced
    for that content, the remaining events are not processed, and the error
    propagates as the terminal result. -/
theorem C6_thm (ctx : Ctx) (stack : List EventEntry) (bytes : List Nat)
    (out : String) (rest : List XmlEvent) :
    ((∀ e ∈ stack, isTextParent e = false) →
      processEvents ctx (.textE bytes :: rest) stack out =
        (stack, out, some (.parseErr "cannot find parent for text"))) ∧
    (∀ parent, stack.find? isTextParent = some parent →
      parent.positions = none ∨ parent.positions = some [] →
      processEvents ctx (.textE bytes :: rest) stack out =
        (stack, out, some (.parseErr "No positions found for text"))) := by
  constructor
  · intro h
    have hf : stack.find? isTextParent = none :=
      List.find?_eq_none.mpr (fun e he => by simp [h e he])
    simp [processEvents, stepEvent, handleTextContent, hf]
  · intro parent hf hpos
    rcases hpos with hp | hp <;>
      simp [processEvents, stepEvent, handleTextContent, hf, hp]

/-- Witness for C6: a root-only stack for the missing container, and a
    `tspan` entry with an empty anchor list for the missing anchors. -/
theorem C6_witness :
    processEvents ctxTriv [.textE [65]] [rootEntry idTransform] "" =
      ([rootEntry idTransform], "", some (.parseErr "cannot find parent for text")) ∧
    processEvents ctxTriv [.textE [65]]
      [⟨"tspan", idTransform, some [], none⟩, rootEntry idTransform] "" =
      ([⟨"tspan", idTransform, some [], none⟩, rootEntry idTransform], "",
       some (.parseErr "No positions found for text")) :=
  ⟨(C6_thm ctxTriv [rootEntry idTransform] [65] "" []).1 (by decide),
   (C6_thm ctxTriv [⟨"tspan", idTransform, some [], none⟩, rootEntry idTransform] [65] "" []).2
     ⟨"tspan", idTransform, some [], none⟩ (by decide) (Or.inr rfl)⟩

/-- `str::replace` with a one-character pattern substitutes characterwise. -/
theorem replaceAux_single (c : Char) (r : List Char) :
    ∀ (n : Nat) (s : List Char), s.length ≤ n →
      replaceAux [c] r n s = concatMap (fun a => if a = c then r else [a]) s := by
  intro n
  induction n with
  | zero =>
    intro s hs
    cases s with
    | nil => rfl
    | cons a s2 => simp at hs
  | succ n ih =>
    intro s hs
    cases s with
    | nil => rfl
    | cons a s2 =>
      have hs2 : s2.length ≤ n := by simpa using hs
      by_cases hac : c = a
      · subst hac
        simp [replaceAux, hasPfx, concatMap, ih s2 hs2]
      · have hca : ¬a = c := fun h => hac h.symm
        simp [replaceAux, hasPfx, concatMap, hac, hca, ih s2 hs2]

/-- `replaceList` with a one-character pattern substitutes characterwise. -/
theorem replaceList_single (c : Char) (r s : List Char) :
    replaceList s [c] r = concatMap (fun a => if a = c then r else [a]) s :=
  replaceAux_single c r s.length s le_rfl

/-- `concatMap` distributes over list append. -/
theorem concatMap_append (f : Char → List Char) (l1 l2 : List Char) :
    concatMap f (l1 ++ l2) = concatMap f l1 ++ concatMap f l2 := by
  induction l1 with
  | nil => rfl
  | cons a l ih => simp [concatMap, ih]

/-- Two characterwise substitutions compose into one. -/
theorem concatMap_concatMap (f g : Char → List Char) (s : List Char) :
    concatMap g (concatMap f s) = concatMap (fun a => concatMap g (f a)) s := by
  induction s with
  | nil => rfl
  | cons a s ih => simp [concatMap, concatMap_append, ih]

/-- `concatMap` respects pointwise equality. -/
theorem concatMap_congr (f g : Char → List Char) (h : ∀ a, f a = g a) :
    ∀ s, concatMap f s = concatMap g s := by
  intro s
  induction s with
  | nil => rfl
  | cons a s ih => simp [concatMap, h a, ih]

/-- C8: the emitted escaped text equals the per-character mapping computed
    from the original string — each of `$`, `[`, `]`, `/`, `#` becomes a
    backslash followed by that character, every other character (including
    the backslash) is unchanged, and no backslash introduced by one replace
    is escaped by a later one. In particular content "A$B" is rendered
    inside the brackets as `A\$B`. -/
theorem C8_thm :
    (∀ s : List Char, escapeContent s = concatMap specCharEscape s) ∧
    gen_content (5, 5) none "A$B".toList 1 =
      "content((5,5), anchor: \"south-west\",[A\\$B])\n" := by
  constructor
  · intro s
    unfold escapeContent
    rw [replaceList_single, replaceList_single, replaceList_single, replaceList_single,
        replaceList_single, concatMap_concatMap, concatMap_concatMap, concatMap_concatMap,
        concatMap_concatMap]
    refine concatMap_congr _ _ (fun a => ?_) s
    by_cases h1 : a = '$'
    · subst h1; decide
    by_cases h2 : a = '['
    · subst h2; decide
    by_cases h3 : a = ']'
    · subst h3; decide
    by_cases h4 : a = '/'
    · subst h4; decide
    by_cases h5 : a = '#'
    · subst h5; decide
    simp [concatMap, specCharEscape, h1, h2, h3, h4, h5]
  · decide

/-- Decoding a single byte succeeds exactly on ASCII. -/
theorem utf8Aux_single (fuel b : Nat) :
    utf8Aux (fuel + 1) [b] = if b < 128 then some [Char.ofNat b] else none := by
  by_cases hb : b < 128
  · simp [utf8Aux, hb]
  · simp only [utf8Aux]
    rw [if_neg hb, if_neg (by omega : ¬b < 128)]
    split_ifs <;> rfl

/-- `str::from_utf8` on a single byte succeeds exactly on ASCII. -/
theorem utf8Decode_single (b : Nat) :
    utf8Decode [b] = if b < 128 then some [Char.ofNat b] else none :=
  utf8Aux_single 0 b

/-- The per-character loop on all-ASCII zipped pairs emits one content line
    per pair and no error. -/
theorem emitTspanPairs_ascii (t : Transform) (style : Option SvgStyle) (fs : ℚ) :
    ∀ (pairs : List (Nat × (ℚ × ℚ))), (∀ pb ∈ pairs, pb.1 < 128) →
      emitTspanPairs t style fs pairs =
        (joinStrs (pairs.map (fun pb =>
          gen_content (apply_transform pb.2 t) style [Char.ofNat pb.1] fs)), none) := by
  intro pairs
  induction pairs with
  | nil => intro h; rfl
  | cons pb rest ih =>
    intro h
    obtain ⟨b, pos⟩ := pb
    have hb : b < 128 := h (b, pos) (List.mem_cons_self _ _)
    simp only [emitTspanPairs, utf8Decode_single, if_pos hb,
      ih (fun x hx => h x (List.mem_cons_of_mem _ hx)), List.map_cons, joinStrs]

/-- The per-character loop stops at the first non-ASCII byte among the
    zipped pairs: the lines already produced are kept, the rest are not
    emitted, and the error aborts the conversion. -/
theorem emitTspanPairs_err (t : Transform) (style : Option SvgStyle) (fs : ℚ) :
    ∀ (pre : List (Nat × (ℚ × ℚ))) (b : Nat) (pos : ℚ × ℚ)
      (post : List (Nat × (ℚ × ℚ))),
      (∀ pb ∈ pre, pb.1 < 128) → 128 ≤ b →
      emitTspanPairs t style fs (pre ++ (b, pos) :: post) =
        (joinStrs (pre.map (fun pb =>
          gen_content (apply_transform pb.2 t) style [Char.ofNat pb.1] fs)),
         some (.parseErr "invalid utf-8")) := by
  intro pre
  induction pre with
  | nil =>
    intro b pos post hpre hb
    have hno : utf8Decode [b] = none := by
      rw [utf8Decode_single]; exact if_neg (by omega)
    simp [emitTspanPairs, hno, joinStrs]
  | cons pb rest ih =>
    intro b pos post hpre hb
    obtain ⟨b0, pos0⟩ := pb
    have hb0 : b0 < 128 := hpre (b0, pos0) (List.mem_cons_self _ _)
    simp only [List.cons_append, emitTspanPairs, utf8Decode_single, if_pos hb0,
      List.append_eq]
    rw [ih b pos post (fun x hx => hpre x (List.mem_cons_of_mem _ hx)) hb]
    simp [joinStrs]

/-- Dispatch of a text-content event whose nearest text/span entry is a
    `tspan` with more than one anchor: the engine runs the per-character
    loop on the byte/anchor zip, under the top-of-stack transform. -/
theorem handleTextContent_tspan_multi (ctx : Ctx) (top : EventEntry)
    (rest : List EventEntry) (parent : EventEntry) (bytes : List Nat)
    (ps : List (ℚ × ℚ))
    (hfind : (top :: rest).find? isTextParent = some parent)
    (hname : parent.name = "tspan")
    (hps : parent.positions = some ps)
    (hlen : 1 < ps.length) :
    handleTextContent ctx (top :: rest) bytes =
      emitTspanPairs top.transform parent.style ctx.font_scale (bytes.zip ps) := by
  have hne : ps.isEmpty = false := by
    cases ps with
    | nil => simp at hlen
    | cons p ps2 => rfl
  have hnt : ¬parent.name = "text" := by rw [hname]; decide
  simp [handleTextContent, hfind, hps, hne, hnt, hname, hlen]

/-- C3 (amended): for a text-content event whose nearest enclosing entry is
    a `tspan` with more than one anchor, the content bytes are zipped
    positionally with the anchor list (extra bytes beyond the anchor count
    dropped, extra anchors unused), and — provided every zipped byte is
    ASCII — one content primitive is emitted per pair at the anchor
    transformed by the top-of-stack transform, with the resolved
    style. (A non-ASCII zipped byte instead aborts the conversion, see the
    counterexample; the scenario x="0 10 20", y="0 0 0", content "xyz" under
    the identity root transform emits three content lines at (0,0), (10,0),
    (20,0) with no style annotation.) -/
theorem C3_thm (ctx : Ctx) (top : EventEntry) (rest : List EventEntry)
    (parent : EventEntry) (bytes : List Nat) (ps : List (ℚ × ℚ))
    (hfind : (top :: rest).find? isTextParent = some parent)
    (hname : parent.name = "tspan")
    (hps : parent.positions = some ps)
    (hlen : 1 < ps.length)
    (hascii : ∀ pb ∈ bytes.zip ps, pb.1 < 128) :
    handleTextContent ctx (top :: rest) bytes =
      (joinStrs ((bytes.zip ps).map (fun pb =>
        gen_content (apply_transform pb.2 top.transform) parent.style
          [Char.ofNat pb.1] ctx.font_scale)), none) := by
  rw [handleTextContent_tspan_multi ctx top rest parent bytes ps hfind hname hps hlen,
      emitTspanPairs_ascii _ _ _ _ hascii]

unseal Rat.add Rat.mul Rat.sub Rat.inv Rat.ofScientific in
/-- C3 counterexample: with two anchors and the non-ASCII content bytes
    [195, 169] (the UTF-8 encoding of one accented letter), NO content
    primitive is emitted — the conversion aborts at the first byte — whereas
    the claim requires one content primitive per zipped pair. -/
theorem C3_counterexample :
    handleTextContent ctxTriv
      [⟨"tspan", idTransform, some [(0, 0), (1, 1)], none⟩, rootEntry idTransform]
      [195, 169] = ("", some (.parseErr "invalid utf-8")) := by
  decide

unseal Rat.add Rat.mul Rat.sub Rat.inv Rat.ofScientific in
/-- Witness for C3: the scenario of the claim itself, at the handler and through
    the whole engine run. -/
theorem C3_witness :
    handleTextContent ctxTriv
      [⟨"tspan", idTransform, some [(0, 0), (10, 0), (20, 0)], none⟩,
       ⟨"text", idTransform, some [(0, 0)], none⟩, rootEntry idTransform]
      [120, 121, 122] =
      ("content((0,0), anchor: \"south-west\",[x])\ncontent((10,0), anchor: \"south-west\",[y])\ncontent((20,0), anchor: \"south-west\",[z])\n",
       none) ∧
    handle_event ctxTriv idTransform
      [.startE "text" [], .startE "tspan" [("x", "0 10 20"), ("y", "0 0 0")],
       .textE [120, 121, 122]] =
      ([⟨"tspan", idTransform, some [(0, 0), (10, 0), (20, 0)], none⟩,
        ⟨"text", idTransform, some [(0, 0)], none⟩, rootEntry idTransform],
       "content((0,0), anchor: \"south-west\",[x])\ncontent((10,0), anchor: \"south-west\",[y])\ncontent((20,0), anchor: \"south-west\",[z])\n",
       none) := by
  constructor
  · have h := C3_thm ctxTriv
      ⟨"tspan", idTransform, some [(0, 0), (10, 0), (20, 0)], none⟩
      [⟨"text", idTransform, some [(0, 0)], none⟩, rootEntry idTransform]
      ⟨"tspan", idTransform, some [(0, 0), (10, 0), (20, 0)], none⟩
      [120, 121, 122] [(0, 0), (10, 0), (20, 0)]
      (by decide) rfl rfl (by decide) (by decide)
    rw [h]
    decide
  · decide

/-- C10: for a `tspan` entry with more than one anchor, per-character
    emission succeeds for every zipped pair when the content is ASCII, but
    a non-ASCII byte among the zipped positions makes the single-byte
    string conversion fail: the conversion aborts with an error after
    emitting only the lines before that byte — the byte-for-byte split is
    total only on ASCII content. -/
theorem C10_thm (ctx : Ctx) (top : EventEntry) (rest : List EventEntry)
    (parent : EventEntry) (bytes : List Nat) (ps : List (ℚ × ℚ))
    (hfind : (top :: rest).find? isTextParent = some parent)
    (hname : parent.name = "tspan")
    (hps : parent.positions = some ps)
    (hlen : 1 < ps.length) :
    ((∀ pb ∈ bytes.zip ps, pb.1 < 128) →
      (handleTextContent ctx (top :: rest) bytes).2 = none) ∧
    (∀ (pre : List (Nat × (ℚ × ℚ))) (b : Nat) (pos : ℚ × ℚ)
       (post : List (Nat × (ℚ × ℚ))),
      bytes.zip ps = pre ++ (b, pos) :: post →
      (∀ pb ∈ pre, pb.1 < 128) → 128 ≤ b →
      handleTextContent ctx (top :: rest) bytes =
        (joinStrs (pre.map (fun pb =>
          gen_content (apply_transform pb.2 top.transform) parent.style
            [Char.ofNat pb.1] ctx.font_scale)),
         some (.parseErr "invalid utf-8"))) := by
  constructor
  · intro hascii
    rw [handleTextContent_tspan_multi ctx top rest parent bytes ps hfind hname hps hlen,
        emitTspanPairs_ascii _ _ _ _ hascii]
  · intro pre b pos post hzip hpre hb
    rw [handleTextContent_tspan_multi ctx top rest parent bytes ps hfind hname hps hlen,
        hzip, emitTspanPairs_err _ _ _ pre b pos post hpre hb]

unseal Rat.add Rat.mul Rat.sub Rat.inv Rat.ofScientific in
/-- Witness for C10: ASCII bytes succeed; content [120, 195] with two
    anchors emits the line for byte 120 and then aborts. -/
theorem C10_witness :
    (handleTextContent ctxTriv
      [⟨"tspan", idTransform, some [(0, 0), (1, 1)], none⟩, rootEntry idTransform]
      [120, 121]).2 = none ∧
    handleTextContent ctxTriv
      [⟨"tspan", idTransform, some [(0, 0), (1, 1)], none⟩, rootEntry idTransform]
      [120, 195] =
      ("content((0,0), anchor: \"south-west\",[x])\n",
       some (.parseErr "invalid utf-8")) := by
  constructor
  · exact (C10_thm ctxTriv ⟨"tspan", idTransform, some [(0, 0), (1, 1)], none⟩
      [rootEntry idTransform] ⟨"tspan", idTransform, some [(0, 0), (1, 1)], none⟩
      [120, 121] [(0, 0), (1, 1)] (by decide) rfl rfl (by decide)).1 (by decide)
  · have h := (C10_thm ctxTriv ⟨"tspan", idTransform, some [(0, 0), (1, 1)], none⟩
      [rootEntry idTransform] ⟨"tspan", idTransform, some [(0, 0), (1, 1)], none⟩
      [120, 195] [(0, 0), (1, 1)] (by decide) rfl rfl (by decide)).2
      [(120, (0, 0))] 195 (1, 1) [] (by decide) (by decide) (by decide)
    rw [h]
    decide
